import Mathlib

/-!
Shallow embedding of the video-utils repository (src/video_utils.py and
src/utils/concat.py). External processes (ffmpeg, ffprobe) are modelled by
exit-code parameters; filesystem effects are modelled as explicit action
traces. Python values that may be None are modelled as Option.
-/

/-- Python truthiness of an optional string: None and the empty string are
falsy, every other string is truthy. Mirrors `if x:` on a `str | None`. -/
def truthy : Option String → Bool
  | none => false
  | some s => !(s == "")

/-- Helper for splitext: index `i` in `l` is a valid extension dot if `l` has
a literal dot there and some earlier character is not a dot (os.path.splitext
does not split a leading run of dots). Modelled for plain filenames, i.e.
strings without a path separator, which is the only way the repo calls it. -/
def isValidDot (l : List Char) (i : Nat) : Bool :=
  (l.getD i ' ' == '.') && (List.range i).any (fun j => !(l.getD j ' ' == '.'))

/-- The index at which os.path.splitext splits, if any: the last valid dot. -/
def lastValidDot (l : List Char) : Option Nat :=
  (List.range l.length).reverse.find? (isValidDot l)

/-- os.path.splitext on a plain filename (no path separator): the extension
starts at the last dot that is preceded by some non-dot character, and the
extension string retains that leading dot. -/
def splitext (s : String) : String × String :=
  match lastValidDot s.data with
  | none => (s, "")
  | some d => (⟨s.data.take d⟩, ⟨s.data.drop d⟩)

/-- FileInfo from src/utils/concat.py: a filename with optional start and end
timestamps, the splitext decomposition, and the is_trimmed flag. -/
structure FileInfo where
  filename : String
  start_ts : Option String
  end_ts : Option String
  filename_without_extension : String
  extension : String
  is_trimmed : Bool
deriving DecidableEq, Repr

/-- FileInfo.__init__: stores the arguments, computes the splitext split and
initialises is_trimmed to False. -/
def mkFileInfo (filename : String) (start_ts end_ts : Option String) : FileInfo :=
  let se := splitext filename
  { filename := filename
    start_ts := start_ts
    end_ts := end_ts
    filename_without_extension := se.1
    extension := se.2
    is_trimmed := false }

/-- FileInfo.trimmed_video_filename:
returns filename_without_extension + "_trimmed." + extension. -/
def FileInfo.trimmed_video_filename (fi : FileInfo) : String :=
  fi.filename_without_extension ++ "_trimmed." ++ fi.extension

/-- Abstract syntax of the regular expressions used with re.compile: literal
characters, the digit class, the any-character dot, sequencing, alternation
and Kleene star. -/
inductive Regex where
  | emptyset : Regex
  | eps : Regex
  | char : Char → Regex
  | digit : Regex
  | dot : Regex
  | seq : Regex → Regex → Regex
  | alt : Regex → Regex → Regex
  | star : Regex → Regex
deriving DecidableEq, Repr

/-- Whether a regex accepts the empty string. -/
def Regex.nullable : Regex → Bool
  | .emptyset => false
  | .eps => true
  | .char _ => false
  | .digit => false
  | .dot => false
  | .seq a b => a.nullable && b.nullable
  | .alt a b => a.nullable || b.nullable
  | .star _ => true

/-- Brzozowski derivative of a regex by one character. The dot class matches
any character except a newline, as in Python re without DOTALL. -/
def Regex.deriv : Regex → Char → Regex
  | .emptyset, _ => .emptyset
  | .eps, _ => .emptyset
  | .char d, c => if c == d then .eps else .emptyset
  | .digit, c => if c.isDigit then .eps else .emptyset
  | .dot, c => if c == Char.ofNat 10 then .emptyset else .eps
  | .seq a b, c =>
      if a.nullable then .alt (.seq (a.deriv c) b) (b.deriv c)
      else .seq (a.deriv c) b
  | .alt a b, c => .alt (a.deriv c) (b.deriv c)
  | .star a, c => .seq (a.deriv c) (.star a)

/-- Whether a regex accepts a whole character list (re.fullmatch semantics). -/
def Regex.accepts : Regex → List Char → Bool
  | r, [] => r.nullable
  | r, c :: cs => (r.deriv c).accepts cs

/-- Whether a regex accepts some prefix of a character list: the semantics of
re.match, which anchors at the start but not at the end. -/
def Regex.matchHere : Regex → List Char → Bool
  | r, [] => r.nullable
  | r, c :: cs => r.nullable || (r.deriv c).matchHere cs

/-- re.compile(pattern).match(f): prefix match on a string. -/
def reMatch (r : Regex) (f : String) : Bool :=
  r.matchHere f.data

/-- collect_files from src/utils/concat.py (the copy in src/video_utils.py is
identical): filters the directory listing, keeping the entries the compiled
pattern matches from their start, in listing order. The listing of
os.listdir is an explicit parameter. -/
def collect_files (listing : List String) (r : Regex) : List String :=
  listing.filter (fun f => reMatch r f)

/-- one-or-more, as Python + is sugar for. -/
def Regex.plus (a : Regex) : Regex := .seq a (.star a)

/-- Regex literal for a string of plain characters. -/
def Regex.str (s : String) : Regex :=
  s.data.foldr (fun c acc => .seq (.char c) acc) .eps

/-- The discovery pattern of main: join\d+__.*\.mp4 . -/
def joinPattern : Regex :=
  .seq (Regex.str "join")
    (.seq (Regex.plus .digit)
      (.seq (Regex.str "__")
        (.seq (.star .dot)
          (.seq (.char ('.')) (Regex.str "mp4")))))

/-- A single-quote character, code 39. -/
def squote : String := String.mk [Char.ofNat 39]

/-- One manifest record, the f-string file {squote}{filename}{squote} plus a
newline written per filename by write_join_file. -/
def joinRecord (filename : String) : String :=
  "file " ++ squote ++ filename ++ squote ++ "\n"

/-- write_join_file from src/utils/concat.py: opening the destination in mode
w truncates whatever content was there (the prior parameter), then the loop
appends one record per filename. Returns the final file content. -/
def write_join_file (_prior : Option String) (files : List String) : String :=
  files.foldl (fun acc filename => acc ++ joinRecord filename) ""

/-- Python-level exceptions the embedded code can raise: TypeError from
subprocess argument conversion when an argument is None, and
subprocess.CalledProcessError from check=True on a non-zero exit code. -/
inductive PyErr where
  | typeError : PyErr
  | calledProcessError : PyErr
deriving DecidableEq, Repr

/-- Observable external side effects of the config-driven orchestrator: an
ffmpeg trim invocation (with its argument list), a write of the join
manifest (with its content), and an ffmpeg concat invocation. -/
inductive Event where
  | trimCall : List (Option String) → Event
  | joinWrite : String → String → Event
  | concatCall : String → String → Event
deriving DecidableEq, Repr

/-- The argument list do_trim builds: the base command holds -ss start_ts, and
when end_ts is truthy the slice assignment trim_cmd[3:3] inserts -to end_ts
before index 3. start_ts and end_ts are kept as Option values because Python
would pass None through to subprocess.run. -/
def buildTrimCmd (fi : FileInfo) (output_name : String) : List (Option String) :=
  let trim_cmd : List (Option String) :=
    [some "ffmpeg", some "-loglevel", some "warning", some "-ss", fi.start_ts,
     some "-i", some fi.filename, some "-c", some "copy", some output_name]
  if truthy fi.end_ts then
    trim_cmd.take 3 ++ [some "-to", fi.end_ts] ++ trim_cmd.drop 3
  else trim_cmd

/-- do_trim from src/utils/concat.py. subprocess.run raises TypeError before
starting the process if any argument is None; it runs with check=True so a
non-zero exit code raises CalledProcessError after the process ran; on exit
code zero it sets is_trimmed and returns the exit code. The external exit
code is the parameter rc. Returns the external invocations performed and
either the raised exception or the returned code with the updated FileInfo. -/
def do_trim (fi : FileInfo) (output_name : String) (rc : Int) :
    List Event × Except PyErr (Int × FileInfo) :=
  let cmd := buildTrimCmd fi output_name
  if cmd.any Option.isNone then ([], .error .typeError)
  else if rc == 0 then ([.trimCall cmd], .ok (rc, { fi with is_trimmed := true }))
  else ([.trimCall cmd], .error .calledProcessError)

/-- do_concat from src/utils/concat.py: invokes ffmpeg with check=False and
returns the exit code verbatim (parameter rc). -/
def do_concat (join_filename output_filename : String) (rc : Int) :
    List Event × Int :=
  ([.concatCall join_filename output_filename], rc)

/-- One entry of the files mapping of a ProcessingConfig: a required name and
optional start and end timestamps (config.get returns None when absent). -/
structure FileConfig where
  name : String
  start : Option String
  end_ : Option String
deriving DecidableEq, Repr

/-- The body of the process_config loop for one configured entry, given the
exit code rc the external trim process would return and the accumulated
file_list. If the entry has a truthy start or end bound, do_trim runs with
the trimmed filename as output and, on success, that name is appended;
an exception aborts (second component some).  Otherwise the original
filename is appended. -/
def processEntry (cfg : FileConfig) (rc : Int) (file_list : List String) :
    List Event × Option PyErr × List String :=
  let fi := mkFileInfo cfg.name cfg.start cfg.end_
  if truthy fi.start_ts || truthy fi.end_ts then
    match do_trim fi fi.trimmed_video_filename rc with
    | (evs, .error e) => (evs, some e, file_list)
    | (evs, .ok _) => (evs, none, file_list ++ [fi.trimmed_video_filename])
  else ([], none, file_list ++ [fi.filename])

/-- The tail of the process_config loop body: after the entry is appended, if
the accumulated list is longer than one, write_join_file and do_concat run
immediately (the do_concat exit code is ignored by the source, so it is
irrelevant here and taken to be 0). -/
def afterEntry (file_list : List String) : List Event :=
  if file_list.length > 1 then
    [.joinWrite "join.txt" (write_join_file none file_list)] ++
      (do_concat "join.txt" "output.mp4" 0).1
  else []

/-- The process_config loop over the remaining entries. trimRc gives the
external trim exit code for the entry at each absolute position i. An
uncaught exception stops the loop, keeping the events so far. -/
def processLoop : List FileConfig → (Nat → Int) → Nat → List String →
    List Event × Option PyErr
  | [], _, _, _ => ([], none)
  | cfg :: rest, trimRc, i, file_list =>
    match processEntry cfg (trimRc i) file_list with
    | (evs, some e, _) => (evs, some e)
    | (evs, none, fl) =>
      let tail := processLoop rest trimRc (i + 1) fl
      (evs ++ afterEntry fl ++ tail.1, tail.2)

/-- process_config from src/utils/concat.py: iterates over the configured
entries in order, starting from an empty file_list. -/
def process_config (files : List FileConfig) (trimRc : Nat → Int) :
    List Event × Option PyErr :=
  processLoop files trimRc 0 []

/-- Arguments of an external command where one argument is a Python float
(modelled as a rational) rendered by str(). -/
inductive Arg where
  | lit : String → Arg
  | num : ℚ → Arg
deriving DecidableEq, Repr

/-- do_trim_from_end from src/utils/concat.py: builds the trim command with a
fixed output name; when trim_end_secs is given, it queries the probed source
duration (parameter duration, the float ffprobe output parses to) and the
slice assignment trim_cmd[3:3] inserts -to str(duration - trim_end_secs)
before index 3. It runs with check=False and returns the exit code verbatim
(parameter rc). Returns the command and the returned exit code. -/
def do_trim_from_end (video_to_trim from_ts : String)
    (trim_end_secs : Option ℚ) (duration : ℚ) (rc : Int) : List Arg × Int :=
  let trim_cmd : List Arg :=
    [.lit "ffmpeg", .lit "-ss", .lit from_ts, .lit "-i", .lit video_to_trim,
     .lit "-c", .lit "copy", .lit "output_trimmed.mp4"]
  let trim_cmd :=
    match trim_end_secs with
    | some secs => trim_cmd.take 3 ++ [.lit "-to", .num (duration - secs)] ++ trim_cmd.drop 3
    | none => trim_cmd
  (trim_cmd, rc)

/-- The command-line arguments of src/video_utils.py main: the --from
timestamp, the --trim-end seconds and the --keep-all-files flag. argparse
with nargs=1 yields None or a one-element list, so presence is Option.isSome
(even a one-element list holding an empty string is truthy). -/
structure MainArgs where
  from_ts : Option String
  trim_end_secs : Option String
  keep_all_files : Bool
deriving DecidableEq, Repr

/-- Filesystem actions of the bookkeeping tail of main: os.rename and
os.remove. -/
inductive FsAction where
  | rename : String → String → FsAction
  | remove : String → FsAction
deriving DecidableEq, Repr

/-- The post-pipeline bookkeeping of src/video_utils.py main, as the list of
filesystem actions it performs. return_code is the concat exit code; trim_rc
is the trim exit code, consulted only when --from was given (otherwise
trim_cmd_return_code is set to 0). On double success every discovered file
is renamed with the processed_ prefix and then, unless --keep-all-files was
set, output.mp4 is removed; otherwise nothing is done. -/
def mainBookkeeping (args : MainArgs) (files : List String)
    (return_code : Int) (trim_rc : Int) : List FsAction :=
  let trim_cmd_return_code := if args.from_ts.isSome then trim_rc else 0
  if return_code == 0 && trim_cmd_return_code == 0 then
    files.map (fun filename => FsAction.rename filename ("processed_" ++ filename)) ++
      (if !args.keep_all_files then [FsAction.remove "output.mp4"] else [])
  else []

/-- Number of concat invocations in an event trace. -/
def concatCount (evs : List Event) : Nat :=
  (evs.filter fun e => match e with | .concatCall _ _ => true | _ => false).length

/-- Number of join-manifest writes in an event trace. -/
def joinWriteCount (evs : List Event) : Nat :=
  (evs.filter fun e => match e with | .joinWrite _ _ => true | _ => false).length

/-! ### Helper lemmas -/

theorem mkFileInfo_start_ts (n : String) (s e : Option String) :
    (mkFileInfo n s e).start_ts = s := rfl

theorem mkFileInfo_end_ts (n : String) (s e : Option String) :
    (mkFileInfo n s e).end_ts = e := rfl

theorem mkFileInfo_filename (n : String) (s e : Option String) :
    (mkFileInfo n s e).filename = n := rfl

theorem buildTrimCmd_any_isNone (fi : FileInfo) (o : String) :
    ((buildTrimCmd fi o).any Option.isNone) = !fi.start_ts.isSome := by
  cases hs : fi.start_ts <;> cases he : fi.end_ts <;>
    simp [buildTrimCmd, truthy, hs, he] <;> split <;> simp

theorem concatCount_append (a b : List Event) :
    concatCount (a ++ b) = concatCount a + concatCount b := by
  simp [concatCount, List.filter_append]

theorem joinWriteCount_append (a b : List Event) :
    joinWriteCount (a ++ b) = joinWriteCount a + joinWriteCount b := by
  simp [joinWriteCount, List.filter_append]

theorem do_trim_shape (fi : FileInfo) (o : String) (rc : Int) :
    do_trim fi o rc = ([], Except.error PyErr.typeError) ∨
    do_trim fi o rc = ([Event.trimCall (buildTrimCmd fi o)],
      Except.ok (rc, { fi with is_trimmed := true })) ∨
    do_trim fi o rc = ([Event.trimCall (buildTrimCmd fi o)],
      Except.error PyErr.calledProcessError) := by
  simp only [do_trim]
  split
  · exact Or.inl rfl
  · split
    · exact Or.inr (Or.inl rfl)
    · exact Or.inr (Or.inr rfl)

theorem processEntry_shape (cfg : FileConfig) (rc : Int) (fl : List String) :
    (∃ e, processEntry cfg rc fl = ([], some e, fl)) ∨
    (∃ c e, processEntry cfg rc fl = ([Event.trimCall c], some e, fl)) ∨
    (∃ f, processEntry cfg rc fl = ([], none, fl ++ [f])) ∨
    (∃ c f, processEntry cfg rc fl = ([Event.trimCall c], none, fl ++ [f])) := by
  simp only [processEntry]
  split
  · rcases do_trim_shape (mkFileInfo cfg.name cfg.start cfg.end_)
        (mkFileInfo cfg.name cfg.start cfg.end_).trimmed_video_filename rc with h | h | h <;>
      rw [h]
    · exact Or.inl ⟨_, rfl⟩
    · exact Or.inr (Or.inr (Or.inr ⟨_, _, rfl⟩))
    · exact Or.inr (Or.inl ⟨_, _, rfl⟩)
  · exact Or.inr (Or.inr (Or.inl ⟨_, rfl⟩))

theorem processEntry_trace (cfg : FileConfig) (rc : Int) (fl : List String)
    (evs : List Event) (err : Option PyErr) (fl2 : List String)
    (h : processEntry cfg rc fl = (evs, err, fl2)) :
    concatCount evs = 0 ∧ joinWriteCount evs = 0 ∧
      (err = none → fl2.length = fl.length + 1) := by
  rcases processEntry_shape cfg rc fl with ⟨e, h2⟩ | ⟨c, e, h2⟩ | ⟨f, h2⟩ | ⟨c, f, h2⟩ <;>
    rw [h] at h2 <;>
    simp only [Prod.mk.injEq] at h2 <;>
    obtain ⟨h3, h4, h5⟩ := h2 <;>
    subst h3 <;> subst h4 <;> subst h5 <;>
    simp [concatCount, joinWriteCount]

theorem write_join_file_go (files : List String) (acc : String) :
    files.foldl (fun a filename => a ++ joinRecord filename) acc =
      acc ++ String.join (files.map joinRecord) := by
  induction files generalizing acc with
  | nil => simp [String.join, String.append_empty]
  | cons f rest ih =>
      rw [List.map_cons, List.foldl_cons, ih]
      apply String.ext
      simp [String.join_eq, String.data_append]

theorem processLoop_counts (cfgs : List FileConfig) :
    ∀ (trimRc : Nat → Int) (i : Nat) (fl : List String),
      1 ≤ fl.length → (processLoop cfgs trimRc i fl).2 = none →
      concatCount (processLoop cfgs trimRc i fl).1 = cfgs.length ∧
      joinWriteCount (processLoop cfgs trimRc i fl).1 = cfgs.length := by
  induction cfgs with
  | nil =>
      intro trimRc i fl _ _
      simp [processLoop, concatCount, joinWriteCount]
  | cons cfg rest ih =>
      intro trimRc i fl hfl h
      rcases hE : processEntry cfg (trimRc i) fl with ⟨evs, err, fl2⟩
      obtain ⟨hc0, hj0, hlen⟩ := processEntry_trace _ _ _ _ _ _ hE
      cases err with
      | some e => simp [processLoop, hE] at h
      | none =>
          have hl2 : fl2.length = fl.length + 1 := hlen rfl
          have hgt : fl2.length > 1 := by omega
          have hAc : concatCount (afterEntry fl2) = 1 := by
            simp [afterEntry, hgt, do_concat, concatCount]
          have hAj : joinWriteCount (afterEntry fl2) = 1 := by
            simp [afterEntry, hgt, do_concat, joinWriteCount]
          simp only [processLoop, hE] at h ⊢
          obtain ⟨hc, hj⟩ := ih trimRc (i + 1) fl2 (by omega) h
          constructor
          · rw [concatCount_append, concatCount_append, hc0, hAc, hc]
            simp only [List.length_cons]
            omega
          · rw [joinWriteCount_append, joinWriteCount_append, hj0, hAj, hj]
            simp only [List.length_cons]
            omega

/-! ### Claim theorems -/

/-- C1: in process_config, after each configured file entry is appended to
the accumulated file list, the join-list writer and concat invoker run
immediately whenever the list is longer than one, so a configuration of n
entries that completes without an exception invokes concatenation (and the
manifest write) exactly n - 1 times, once per queued file beyond the first,
not once at the end. -/
theorem process_config_concats_per_queued_file (files : List FileConfig)
    (trimRc : Nat → Int) (h : (process_config files trimRc).2 = none) :
    concatCount (process_config files trimRc).1 = files.length - 1 ∧
    joinWriteCount (process_config files trimRc).1 = files.length - 1 := by
  cases files with
  | nil => simp [process_config, processLoop, concatCount, joinWriteCount]
  | cons cfg rest =>
      unfold process_config at h ⊢
      rcases hE : processEntry cfg (trimRc 0) [] with ⟨evs, err, fl2⟩
      obtain ⟨hc0, hj0, hlen⟩ := processEntry_trace _ _ _ _ _ _ hE
      cases err with
      | some e => simp [processLoop, hE] at h
      | none =>
          have hl2 : fl2.length = 1 := by simpa using hlen rfl
          have hA : afterEntry fl2 = [] := by simp [afterEntry, hl2]
          simp only [processLoop, hE, hA, List.append_nil, Nat.zero_add] at h ⊢
          obtain ⟨hc, hj⟩ := processLoop_counts rest trimRc 1 fl2 (by omega) h
          constructor
          · rw [concatCount_append, hc0, hc]
            simp only [List.length_cons]
            omega
          · rw [joinWriteCount_append, hj0, hj]
            simp only [List.length_cons]
            omega

/-- Witness for C1: a three-entry configuration with no trim bounds completes
and invokes concatenation exactly twice. -/
theorem process_config_concats_per_queued_file_witness :
    concatCount (process_config
      [⟨"a.mp4", none, none⟩, ⟨"b.mp4", none, none⟩, ⟨"c.mp4", none, none⟩]
      (fun _ => 0)).1 = 2 ∧
    joinWriteCount (process_config
      [⟨"a.mp4", none, none⟩, ⟨"b.mp4", none, none⟩, ⟨"c.mp4", none, none⟩]
      (fun _ => 0)).1 = 2 :=
  process_config_concats_per_queued_file
    [⟨"a.mp4", none, none⟩, ⟨"b.mp4", none, none⟩, ⟨"c.mp4", none, none⟩]
    (fun _ => 0) (by decide)

/-- C2 counterexample: a successful run with trimming not requested (no
--from flag) and keep-all-files not set still deletes output.mp4, and no run
ever deletes join.txt; this contradicts deleting the output only when
trimming was requested and always deleting the manifest. -/
theorem bookkeeper_counterexample :
    FsAction.remove "output.mp4" ∈
      mainBookkeeping ⟨none, none, false⟩ ["join01__x.mp4"] 0 0 ∧
    FsAction.remove "join.txt" ∉
      mainBookkeeping ⟨none, none, false⟩ ["join01__x.mp4"] 0 0 := by
  decide

/-- C2 amended: on overall success of the main pipeline, the bookkeeper
deletes output.mp4 exactly when the keep-all-files option was not set,
regardless of whether trimming was requested, and it never deletes the join
manifest join.txt. -/
theorem bookkeeper_success_behavior (args : MainArgs) (files : List String)
    (rc trc : Int) (hrc : rc = 0) (htrc : args.from_ts.isSome = true → trc = 0) :
    (FsAction.remove "output.mp4" ∈ mainBookkeeping args files rc trc ↔
      args.keep_all_files = false) ∧
    FsAction.remove "join.txt" ∉ mainBookkeeping args files rc trc := by
  subst hrc
  have hne : ("join.txt" : String) ≠ "output.mp4" := by decide
  have hc : (if args.from_ts.isSome then trc else 0) = 0 := by
    by_cases h : args.from_ts.isSome = true
    · rw [if_pos h]
      exact htrc h
    · rw [if_neg h]
  simp only [mainBookkeeping, hc]
  cases hk : args.keep_all_files <;>
    simp [List.mem_append, List.mem_map, hne]

/-- Witness for C2 amended: trimming requested and successful, keep-all-files
not set — output.mp4 is removed and join.txt is not. -/
theorem bookkeeper_success_behavior_witness :
    (FsAction.remove "output.mp4" ∈
        mainBookkeeping ⟨some "00:00:05", none, false⟩ ["a.mp4"] 0 0 ↔
      (false = false)) ∧
    FsAction.remove "join.txt" ∉
      mainBookkeeping ⟨some "00:00:05", none, false⟩ ["a.mp4"] 0 0 :=
  bookkeeper_success_behavior ⟨some "00:00:05", none, false⟩ ["a.mp4"] 0 0 rfl
    (fun _ => rfl)

/-- C5: if any external invocation of the main pipeline fails — the concat
exit code is non-zero, or trimming was requested and its exit code is
non-zero — the bookkeeper performs no filesystem action: no input is renamed
to its processed_ name, nothing is removed, so the join manifest stays on
disk and the output file is not deleted. -/
theorem bookkeeper_skipped_on_failure (args : MainArgs) (files : List String)
    (rc trc : Int)
    (h : rc ≠ 0 ∨ (args.from_ts.isSome = true ∧ trc ≠ 0)) :
    mainBookkeeping args files rc trc = [] := by
  rcases h with h | ⟨h1, h2⟩
  · simp [mainBookkeeping, h]
  · simp [mainBookkeeping, h1, h2]

/-- Witness for C5: a concat exit code of 1 yields no bookkeeping actions. -/
theorem bookkeeper_skipped_on_failure_witness :
    mainBookkeeping ⟨none, none, false⟩ ["join01__x.mp4"] 1 0 = [] :=
  bookkeeper_skipped_on_failure ⟨none, none, false⟩ ["join01__x.mp4"] 1 0
    (Or.inl (by decide))

/-- C3 counterexample: trimmed_video_filename on a FileInfo built from
"clip.mp4" is not "clip_trimmed.mp4"; os.path.splitext keeps the leading dot
in the extension and the method inserts a second dot. -/
theorem trimmed_video_filename_counterexample :
    (mkFileInfo "clip.mp4" none none).trimmed_video_filename ≠
      "clip_trimmed.mp4" := by
  decide

/-- C3 amended: trimmed_video_filename on "clip.mp4" yields
"clip_trimmed..mp4" (a double dot, since the extension ".mp4" retains its
dot and the method appends another), and re-deriving the stem/extension
split from that result and re-applying does double-append the suffix,
yielding "clip_trimmed._trimmed..mp4". -/
theorem trimmed_video_filename_double_dot :
    (mkFileInfo "clip.mp4" none none).trimmed_video_filename =
      "clip_trimmed..mp4" ∧
    (mkFileInfo (mkFileInfo "clip.mp4" none none).trimmed_video_filename
        none none).trimmed_video_filename = "clip_trimmed._trimmed..mp4" := by
  decide

/-- C4 counterexample: do_trim runs the external process with check=True, so
an exit code of 1 raises CalledProcessError instead of being returned
verbatim. -/
theorem do_trim_raises_counterexample :
    (do_trim (mkFileInfo "video.mp4" (some "00:00:10") none) "out.mp4" 1).2 =
      Except.error PyErr.calledProcessError := by
  rfl

/-- C4 amended: do_trim_from_end (check=False) returns the external exit code
verbatim for every input; do_trim (check=True) returns the exit code only
when it is zero and raises CalledProcessError on every non-zero exit code. -/
theorem trim_exit_code_propagation (v f o : String) (tes : Option ℚ) (d : ℚ)
    (rc : Int) (fi : FileInfo) (hS : fi.start_ts.isSome = true)
    (hrc : rc ≠ 0) :
    (do_trim_from_end v f tes d rc).2 = rc ∧
    (do_trim fi o 0).2 = Except.ok (0, { fi with is_trimmed := true }) ∧
    (do_trim fi o rc).2 = Except.error PyErr.calledProcessError := by
  refine ⟨rfl, ?_, ?_⟩
  · simp [do_trim, buildTrimCmd_any_isNone, hS]
  · simp [do_trim, buildTrimCmd_any_isNone, hS, hrc]

/-- Witness for C4 amended: exit code 1 with a concrete FileInfo whose start
timestamp is present. -/
theorem trim_exit_code_propagation_witness :
    (do_trim_from_end "output.mp4" "00:00:00" none 0 1).2 = 1 ∧
    (do_trim (mkFileInfo "video.mp4" (some "00:00:10") none) "out.mp4" 0).2 =
      Except.ok (0, { mkFileInfo "video.mp4" (some "00:00:10") none with
        is_trimmed := true }) ∧
    (do_trim (mkFileInfo "video.mp4" (some "00:00:10") none) "out.mp4" 1).2 =
      Except.error PyErr.calledProcessError :=
  trim_exit_code_propagation "output.mp4" "00:00:00" "out.mp4" none 0 1
    (mkFileInfo "video.mp4" (some "00:00:10") none) (by decide) (by decide)

/-- C6: collect_files returns exactly the directory entries the pattern
matches from the start, in listing order (it is a sublist of the listing,
with no sorting); the match is a prefix match, not a full match, as the
entry "join1__x.mp4junk" shows: the discovery pattern accepts a proper
prefix of it but not the whole name, and collect_files keeps it. -/
theorem collect_files_spec (listing : List String) (r : Regex) :
    List.Sublist (collect_files listing r) listing ∧
    (∀ f, f ∈ collect_files listing r ↔ f ∈ listing ∧ reMatch r f = true) ∧
    reMatch joinPattern "join1__x.mp4junk" = true ∧
    joinPattern.accepts "join1__x.mp4junk".data = false ∧
    collect_files ["join1__x.mp4junk", "other.mp4"] joinPattern =
      ["join1__x.mp4junk"] := by
  refine ⟨List.filter_sublist _, ?_, by decide, by decide, by decide⟩
  intro f
  simp [collect_files, List.mem_filter]

/-- C7: write_join_file produces exactly one record per filename, in order:
the content is the concatenation of the records, the two-file example gives
the exact expected bytes (f i l e space quote a . m p 4 quote newline, then
the b line), a single quote inside a filename is written unescaped, and the
prior content of the destination is ignored (mode w overwrites). -/
theorem write_join_file_records (prior : Option String) (files : List String) :
    write_join_file prior files = String.join (files.map joinRecord) ∧
    write_join_file prior ["a.mp4", "b.mp4"] =
      String.mk (List.map Char.ofNat
        [102, 105, 108, 101, 32, 39, 97, 46, 109, 112, 52, 39, 10,
         102, 105, 108, 101, 32, 39, 98, 46, 109, 112, 52, 39, 10]) ∧
    write_join_file prior [String.mk (List.map Char.ofNat
        [97, 39, 98, 46, 109, 112, 52])] =
      String.mk (List.map Char.ofNat
        [102, 105, 108, 101, 32, 39, 97, 39, 98, 46, 109, 112, 52, 39, 10]) := by
  refine ⟨?_, by rfl, by rfl⟩
  rw [write_join_file, write_join_file_go, String.empty_append]

/-- C8: with an end-relative offset, do_trim_from_end inserts -to followed by
the probed duration minus the offset into the command (before the -i flag);
for probed duration 125.4 and offset 5 the value is 120.4; and an offset at
or beyond the duration is not rejected — the command is still built, with a
non-positive end timestamp, and the exit code is returned as usual. -/
theorem do_trim_from_end_end_arithmetic (v f : String) (secs d : ℚ)
    (rc : Int) :
    do_trim_from_end v f (some secs) d rc =
      ([Arg.lit "ffmpeg", Arg.lit "-ss", Arg.lit f, Arg.lit "-to",
        Arg.num (d - secs), Arg.lit "-i", Arg.lit v, Arg.lit "-c",
        Arg.lit "copy", Arg.lit "output_trimmed.mp4"], rc) ∧
    (do_trim_from_end v f (some 5) (627 / 5) rc).1.get? 4 =
      some (Arg.num (602 / 5)) ∧
    (do_trim_from_end v f (some 130) (627 / 5) rc).1.get? 4 =
      some (Arg.num (-23 / 5)) ∧
    (do_trim_from_end v f (some 130) (627 / 5) rc).2 = rc := by
  refine ⟨rfl, ?_, ?_, rfl⟩
  · show some (Arg.num ((627 : ℚ) / 5 - 5)) = some (Arg.num (602 / 5))
    norm_num
  · show some (Arg.num ((627 : ℚ) / 5 - 130)) = some (Arg.num (-23 / 5))
    norm_num

/-- C9: for a configured entry with a truthy start or end bound (and a
present start, so the command is well formed), a successful trim invocation
runs the Trim Invoker on the entry with the trimmed filename as output and
appends that trimmed filename to the concatenation queue; for an entry with
neither bound, the original filename is appended directly and no trim
command runs. -/
theorem process_config_entry_routing (cfg : FileConfig) (rc : Int)
    (fl : List String) :
    ((truthy cfg.start || truthy cfg.end_) = true → cfg.start.isSome = true →
      rc = 0 →
      processEntry cfg rc fl =
        ([Event.trimCall (buildTrimCmd (mkFileInfo cfg.name cfg.start cfg.end_)
            (mkFileInfo cfg.name cfg.start cfg.end_).trimmed_video_filename)],
          none,
          fl ++ [(mkFileInfo cfg.name cfg.start cfg.end_).trimmed_video_filename])) ∧
    ((truthy cfg.start || truthy cfg.end_) = false →
      processEntry cfg rc fl = ([], none, fl ++ [cfg.name])) := by
  constructor
  · intro hB hS hrc
    subst hrc
    have hno : ((buildTrimCmd (mkFileInfo cfg.name cfg.start cfg.end_)
        (mkFileInfo cfg.name cfg.start cfg.end_).trimmed_video_filename).any
          Option.isNone) = false := by
      rw [buildTrimCmd_any_isNone, mkFileInfo_start_ts, hS]
      rfl
    simp [processEntry, mkFileInfo_start_ts, mkFileInfo_end_ts, hB,
      do_trim, hno]
  · intro hB
    simp [processEntry, mkFileInfo_start_ts, mkFileInfo_end_ts,
      mkFileInfo_filename, hB]

/-- Witness for C9: an entry with both bounds is trimmed and its trimmed name
queued; an entry with neither bound is queued as-is with no trim call. -/
theorem process_config_entry_routing_witness :
    processEntry ⟨"video1.mp4", some "00:00:00", some "00:07:21"⟩ 0 [] =
      ([Event.trimCall (buildTrimCmd
          (mkFileInfo "video1.mp4" (some "00:00:00") (some "00:07:21"))
          (mkFileInfo "video1.mp4" (some "00:00:00")
            (some "00:07:21")).trimmed_video_filename)],
        none,
        [] ++ [(mkFileInfo "video1.mp4" (some "00:00:00")
          (some "00:07:21")).trimmed_video_filename]) ∧
    processEntry ⟨"video2.mp4", none, none⟩ 0 ["x.mp4"] =
      ([], none, ["x.mp4"] ++ ["video2.mp4"]) :=
  ⟨(process_config_entry_routing ⟨"video1.mp4", some "00:00:00", some "00:07:21"⟩
      0 []).1 (by decide) (by decide) rfl,
   (process_config_entry_routing ⟨"video2.mp4", none, none⟩ 0 ["x.mp4"]).2
      (by decide)⟩

/-- C10: a configured entry with a truthy end bound and no start still takes
the trim path, and the command it builds carries None as the value of the
-ss flag (position 5 is -ss, position 6 is None), so subprocess argument
conversion raises TypeError: the entry produces no external invocation at
all and process_config aborts with the type error. -/
theorem end_only_entry_type_error (name e : String) (rc : Int)
    (fl : List String) (trimRc : Nat → Int) (he : (e == "") = false) :
    processEntry ⟨name, none, some e⟩ rc fl = ([], some PyErr.typeError, fl) ∧
    (buildTrimCmd (mkFileInfo name none (some e))
        (mkFileInfo name none (some e)).trimmed_video_filename).get? 5 =
      some (some "-ss") ∧
    (buildTrimCmd (mkFileInfo name none (some e))
        (mkFileInfo name none (some e)).trimmed_video_filename).get? 6 =
      some none ∧
    process_config [⟨name, none, some e⟩] trimRc = ([], some PyErr.typeError) := by
  have ht : truthy (some e) = true := by simp [truthy, he]
  have hPE : ∀ (rc2 : Int) (fl2 : List String),
      processEntry ⟨name, none, some e⟩ rc2 fl2 =
        ([], some PyErr.typeError, fl2) := by
    intro rc2 fl2
    simp [processEntry, do_trim, buildTrimCmd_any_isNone, mkFileInfo_start_ts,
      mkFileInfo_end_ts, ht]
  refine ⟨hPE rc fl, ?_, ?_, ?_⟩
  · simp [buildTrimCmd, mkFileInfo_end_ts, mkFileInfo_start_ts, ht]
  · simp [buildTrimCmd, mkFileInfo_end_ts, mkFileInfo_start_ts, ht]
  · simp [process_config, processLoop, hPE]

/-- Witness for C10: the entry named video2.mp4 with end 00:07:21 and no
start aborts with TypeError and no external invocation. -/
theorem end_only_entry_type_error_witness :
    processEntry ⟨"video2.mp4", none, some "00:07:21"⟩ 0 [] =
      ([], some PyErr.typeError, []) ∧
    (buildTrimCmd (mkFileInfo "video2.mp4" none (some "00:07:21"))
        (mkFileInfo "video2.mp4" none
          (some "00:07:21")).trimmed_video_filename).get? 5 =
      some (some "-ss") ∧
    (buildTrimCmd (mkFileInfo "video2.mp4" none (some "00:07:21"))
        (mkFileInfo "video2.mp4" none
          (some "00:07:21")).trimmed_video_filename).get? 6 =
      some none ∧
    process_config [⟨"video2.mp4", none, some "00:07:21"⟩] (fun _ => 0) =
      ([], some PyErr.typeError) :=
  end_only_entry_type_error "video2.mp4" "00:07:21" 0 [] (fun _ => 0)
    (by decide)


